import Mathlib

/-!
Shallow embedding of the MorningStatus market-data scripts
(`52weeks.py`, `stockpricesdaily.py`, `52weeksboard.py`).

Conventions of the embedding:
* Python floats are modelled as `ℚ` (all values occurring in the claims are
  exact decimals; NaN does not occur in the modelled inputs).
* A Python value stored in one of the loosely-typed upstream dictionaries is
  a `PyVal` (number or string); a missing key and a key whose value is `None`
  are both modelled as `Option.none`, since every use in the source
  (`dict.get`, `x or y`, `x is None`) treats them identically.
* Python's truthiness-based `or` chaining is `pyOr`.
* Fallible code paths are modelled with `Option`/`Except`; accessor calls
  that may raise are modelled by an environment record whose fields hold the
  call's outcome (`none` = the call raised).
-/

/-- Loosely-typed value held in an upstream dictionary (`fast_info`, `info`,
cache JSON): a float or a string. -/
inductive PyVal where
  | num (q : ℚ)
  | str (s : String)
deriving DecidableEq

/-- Python dictionary with string keys, as used for `fast_info` / `info`. -/
def Dict := List (String × PyVal)

instance : DecidableEq Dict := by unfold Dict; infer_instance

/-- Model of Python `d.get(k)`: `none` for a missing key (and for a key bound
to `None`, which every call site treats the same way). -/
def Dict.get (d : Dict) (k : String) : Option PyVal :=
  (List.find? (fun p => p.1 = k) d).map (fun p => p.2)

/-- Python truthiness of an optional dictionary value: `None` is falsy,
`0`/`0.0` is falsy, the empty string is falsy. -/
def truthy : Option PyVal → Bool
  | none => false
  | some (.num q) => decide (q ≠ 0)
  | some (.str s) => decide (s ≠ "")

/-- Model of Python `a or b` on possibly-`None` dictionary values: yields `a`
when `a` is truthy, otherwise `b` (even when `b` is falsy). -/
def pyOr (a b : Option PyVal) : Option PyVal :=
  if truthy a then a else b

/-- Digits of a decimal literal read as a natural number. -/
def digitsToNat (l : List Char) : Nat :=
  l.foldl (fun n c => 10 * n + (c.toNat - '0'.toNat)) 0

/-- Parsed shape of a plain decimal literal: sign, integer-part digits,
fractional-part digits and the number of fractional digits. -/
structure DecLit where
  neg : Bool
  ip : Nat
  fp : Nat
  flen : Nat
deriving DecidableEq

/-- Digit-level half of the model of CPython `float()` restricted to plain
decimal literals (optional sign, integer digits, optional fractional part):
the only shapes produced by the upstream quote provider.  Anything else
(`"abc"`, `""`, ...) fails, as `float()` raises `ValueError` there. -/
def parseDecLit (cs : List Char) : Option DecLit :=
  let signAndRest : Bool × List Char :=
    match cs with
    | '-' :: t => (true, t)
    | '+' :: t => (false, t)
    | _ => (false, cs)
  let neg := signAndRest.1
  let body := signAndRest.2
  let intPart := body.takeWhile Char.isDigit
  let rest := body.dropWhile Char.isDigit
  match rest with
  | [] =>
    if intPart = [] then none
    else some ⟨neg, digitsToNat intPart, 0, 0⟩
  | '.' :: frac =>
    if frac.all Char.isDigit ∧ ¬(intPart = [] ∧ frac = []) then
      some ⟨neg, digitsToNat intPart, digitsToNat frac, frac.length⟩
    else none
  | _ => none

/-- Rational value denoted by a parsed decimal literal. -/
def DecLit.val (p : DecLit) : ℚ :=
  (if p.neg then (-1 : ℚ) else 1) * ((p.ip : ℚ) + (p.fp : ℚ) / (10 ^ p.flen))

/-- Model of CPython `float()` on plain decimal literals. -/
def parsePyFloat (cs : List Char) : Option ℚ :=
  (parseDecLit cs).map DecLit.val

/-- Model of Python `str.strip()`: drop ASCII whitespace from both ends. -/
def pyStrip (cs : List Char) : List Char :=
  ((cs.dropWhile Char.isWhitespace).reverse.dropWhile Char.isWhitespace).reverse

/-- Embedding of `safe_float` (`52weeks.py` lines 96–102):
`float(str(x).replace(",", "").strip())` with every failure mapped to `None`.
A numeric input round-trips through `str`/`float` unchanged; a string input
has its commas removed, is stripped, and is parsed; an unparseable value
yields `none` instead of an error. -/
def safe_float : Option PyVal → Option ℚ
  | none => none
  | some (.num q) => some q
  | some (.str s) => parsePyFloat (pyStrip (s.toList.filter (fun c => c ≠ ',')))

/-- Resolved per-ticker quote as written into the 52-week cache
(`52weeks.py` line 222): each field may be absent. -/
structure Quote52 where
  yearHigh : Option ℚ
  yearLow : Option ℚ
  close : Option ℚ
  previousClose : Option ℚ
deriving DecidableEq

/-- The all-absent quote returned on failure
(`52weeks.py` lines 113, 228, 246). -/
def noneQuote : Quote52 := ⟨none, none, none, none⟩

/-- Loaded 52-week cache envelope as seen by `cache_is_fresh`
(`stockpricesdaily.py`): only the `date` entry matters for freshness; the
`values` mapping is carried for the envelope round-trip claims.  A wholly
empty JSON object `{}` (falsy in Python) is modelled as `Option.none` at the
call sites. -/
structure Cache52 where
  date : Option String
  values : List (String × Quote52)
deriving DecidableEq

/-- Embedding of `cache_is_fresh` (`stockpricesdaily.py` lines 152–161): an
empty dict is not fresh, a missing/falsy `date` is not fresh, otherwise the
stored date string is compared with today's ISO date string. -/
def cache_is_fresh (cache : Option Cache52) (today : String) : Bool :=
  match cache with
  | none => false
  | some c =>
    match c.date with
    | none => false
    | some d => if d = "" then false else d = today

/-- Historical time-series returned by `t.history(...)`, as consumed by
`fetch_52w_for_symbol` (`52weeks.py` lines 159–214): the code reads
`hist.empty`, tests membership of `"High"`/`"Low"`/`"Close"` in
`hist.columns`, takes `max`/`min` of the High/Low columns and the last and
second-to-last entries of the NaN-dropped Close column.  `closes` entries are
`Option` because `dropna` removes NaN cells. -/
structure HistDF where
  empty : Bool
  hasHigh : Bool
  hasLow : Bool
  highs : List ℚ
  lows : List ℚ
  hasClose : Bool
  closes : List (Option ℚ)
deriving DecidableEq

/-- Pandas `Series.max` over a nonempty float column (the empty case is
unreachable behind the `hist.empty` guard; it is given an arbitrary value). -/
def colMax : List ℚ → ℚ
  | [] => 0
  | x :: xs => xs.foldl max x

/-- Pandas `Series.min` over a nonempty float column. -/
def colMin : List ℚ → ℚ
  | [] => 0
  | x :: xs => xs.foldl min x

/-- Last element of a nonempty list (`closes.iloc[-1]`). -/
def lastD (l : List ℚ) : ℚ := l.getLast?.getD 0

/-- Second-to-last element of a list of length ≥ 2 (`closes.iloc[-2]`). -/
def secondLastD (l : List ℚ) : ℚ := (l.reverse.drop 1).headD 0

/-- Outcome of the accessor calls made inside one attempt of
`fetch_52w_for_symbol`.  `fast_info` is `none` when `getattr` yields `None`
or a falsy/non-dict object (the code guards with
`if fi and isinstance(fi, dict)`); `info` is the dict from
`getattr(t, "info", {}) or {}`; `hist1y` is the result of the 1-year history
call chain (lines 148–157; `none` when both calls raised); `hist2y` is the
result of the 2-year call (line 188; `none` when it raised). -/
structure FetchEnv where
  fast_info : Option Dict
  info : Dict
  hist1y : Option HistDF
  hist2y : Option HistDF

/-- Field-resolution state threaded through one attempt of
`fetch_52w_for_symbol` before the final `safe_float` coercion:
the four local variables `yr_high`, `yr_low`, `close`, `prev_close`. -/
structure PreQuote where
  yr_high : Option PyVal
  yr_low : Option PyVal
  close : Option PyVal
  prev_close : Option PyVal
deriving DecidableEq

/-- Embedding of the snapshot/metadata tiers of `fetch_52w_for_symbol`
(`52weeks.py` lines 119–143): the `fast_info` alias `or`-chains, the
`is None`-guarded escalation to `info` for the 52-week fields, and the
truthiness `or`-chains extending `close`/`prev_close` from `info`. -/
def accessorStage (env : FetchEnv) : PreQuote :=
  let fi : Dict := env.fast_info.getD []
  let info : Dict := env.info
  let yr_high : Option PyVal := none
  let yr_low : Option PyVal := none
  let close : Option PyVal := none
  let prev_close : Option PyVal := none
  let fiTruthy : Bool := decide (fi ≠ [])
  let yr_high := if fiTruthy then
      pyOr (pyOr (fi.get "yearHigh") (fi.get "fiftyTwoWeekHigh")) (fi.get "52WeekHigh")
    else yr_high
  let yr_low := if fiTruthy then
      pyOr (pyOr (fi.get "yearLow") (fi.get "fiftyTwoWeekLow")) (fi.get "52WeekLow")
    else yr_low
  let close := if fiTruthy then
      pyOr (pyOr (pyOr close (fi.get "lastPrice")) (fi.get "regularMarketPrice"))
        (fi.get "last_close")
    else close
  let prev_close := if fiTruthy then
      pyOr (pyOr prev_close (fi.get "previousClose")) (fi.get "regularMarketPreviousClose")
    else prev_close
  let yr_high := if yr_high = none ∧ info ≠ [] then
      pyOr (pyOr (info.get "fiftyTwoWeekHigh") (info.get "52WeekHigh")) (info.get "yearHigh")
    else yr_high
  let yr_low := if yr_low = none ∧ info ≠ [] then
      pyOr (pyOr (info.get "fiftyTwoWeekLow") (info.get "52WeekLow")) (info.get "yearLow")
    else yr_low
  let close := if info ≠ [] then
      pyOr (pyOr (pyOr (pyOr close (info.get "regularMarketPrice")) (info.get "currentPrice"))
        (info.get "close")) (info.get "lastClose")
    else close
  let prev_close := if info ≠ [] then
      pyOr (pyOr prev_close (info.get "previousClose")) (info.get "regularMarketPreviousClose")
    else prev_close
  ⟨yr_high, yr_low, close, prev_close⟩

/-- High/Low half of the per-window history aggregation (`52weeks.py`
lines 160–167, and the identical 2-year copy at lines 189–196): fill
`yr_high`/`yr_low` from the High/Low column extremes only when still `None`
(`is None` tests). -/
def applyHighLow (h : HistDF) (p : PreQuote) : PreQuote :=
  if h.hasHigh ∧ h.hasLow then
    { p with
      yr_high := if p.yr_high = none then some (.num (colMax h.highs)) else p.yr_high,
      yr_low := if p.yr_low = none then some (.num (colMin h.lows)) else p.yr_low }
  else p

/-- Close-column half of the per-window aggregation (`52weeks.py`
lines 169–184): the last and second-to-last NaN-dropped closes extend
`close`/`prev_close` by truthiness `or`-chaining. -/
def applyCloses (h : HistDF) (p : PreQuote) : PreQuote :=
  if h.hasClose then
    let closes := h.closes.filterMap id
    if closes ≠ [] then
      let p2 := { p with close := pyOr p.close (some (.num (lastD closes))) }
      if 2 ≤ closes.length then
        { p2 with prev_close := pyOr p2.prev_close (some (.num (secondLastD closes))) }
      else p2
    else p
  else p

/-- One whole per-window aggregation pass. -/
def applyHist (h : HistDF) (p : PreQuote) : PreQuote :=
  applyCloses h (applyHighLow h p)

/-- Embedding of the history-fallback control flow of `fetch_52w_for_symbol`
(`52weeks.py` lines 146–214): the 1-year series is fetched only when some
field is still `None` (`need_hist`); when it is unavailable or empty — which
includes the case where it was never fetched — the 2-year series is tried. -/
def histStage (env : FetchEnv) (p : PreQuote) : PreQuote :=
  let need_hist : Bool :=
    p.yr_high.isNone || p.yr_low.isNone || p.close.isNone || p.prev_close.isNone
  let hist : Option HistDF := if need_hist then env.hist1y else none
  let hist2Branch : PreQuote :=
    match env.hist2y with
    | some h2 => if h2.empty = false then applyHist h2 p else p
    | none => p
  match hist with
  | some h => if h.empty = false then applyHist h p else hist2Branch
  | none => hist2Branch

/-- Embedding of one whole successful attempt of `fetch_52w_for_symbol`
(`52weeks.py` lines 117–222): accessor tiers, history fallback, then
`safe_float` coercion of all four fields. -/
def fetch52wBody (env : FetchEnv) : Quote52 :=
  let p := histStage env (accessorStage env)
  ⟨safe_float p.yr_high, safe_float p.yr_low, safe_float p.close, safe_float p.prev_close⟩

/-- Result of the retry loop of `fetch_52w_for_symbol`: the returned quote,
the number of attempts actually made, the number of `time.sleep(1.5)` backoff
sleeps performed, and the error lines logged by the loop (the body's own
diagnostic log lines are not modelled). -/
structure RetryResult where
  quote : Quote52
  attemptsMade : Nat
  sleeps : Nat
  logs : List String
deriving DecidableEq

/-- Embedding of the retry loop of `fetch_52w_for_symbol` (`52weeks.py`
lines 115–229, `max_retries = 3`): `runs k` is the outcome of attempt `k`
(`none` = the attempt body raised).  A failed non-final attempt logs an error
and sleeps 1.5 s; after the third failed attempt the final failure is logged
and the all-`None` quote is returned — no exception escapes. -/
def fetch_52w_for_symbol (runs : Nat → Option FetchEnv) : RetryResult :=
  match runs 1 with
  | some e => ⟨fetch52wBody e, 1, 0, []⟩
  | none =>
    match runs 2 with
    | some e => ⟨fetch52wBody e, 2, 1, ["attempt 1 error"]⟩
    | none =>
      match runs 3 with
      | some e => ⟨fetch52wBody e, 3, 2, ["attempt 1 error", "attempt 2 error"]⟩
      | none =>
        ⟨noneQuote, 3, 2,
          ["attempt 1 error", "attempt 2 error", "attempt 3 error", "final failure"]⟩

/-- Python dict assignment `m[k] = v` on a string-keyed mapping preserved in
insertion order: replace the binding when the key exists (keys are unique in
a dict), else append. -/
def dictSet : List (String × Quote52) → String → Quote52 → List (String × Quote52)
  | [], k, v => [(k, v)]
  | p :: rest, k, v => if p.1 = k then (k, v) :: rest else p :: dictSet rest k v

/-- Lookup in the insertion-ordered mapping (`m.get(k)` / `m[k]`). -/
def dictGet (m : List (String × Quote52)) (k : String) : Option Quote52 :=
  (List.find? (fun p => p.1 = k) m).map (fun p => p.2)

/-- Embedding of the result-collection loop of `refresh_52w_cache`
(`52weeks.py` lines 236–246): futures complete in an arbitrary order
(`order`, a permutation of the submitted tickers); a completed future either
yields `(tk, vals)` and stores `results[tk] = vals` (`outcome tk = some vals`;
the fetch function returns its own argument as the key), or raises, in which
case `results[tk]` is set to the all-`None` quote (`outcome tk = none`). -/
def collectResults (order : List String) (outcome : String → Option Quote52) :
    List (String × Quote52) :=
  order.foldl (fun m tk => dictSet m tk ((outcome tk).getD noneQuote)) []

/-- Cache payload built by `refresh_52w_cache` (`52weeks.py` line 249) and
handed to `save_cache`. -/
structure Payload where
  date : String
  symbols : List (String × String)
  values : List (String × Quote52)
deriving DecidableEq

/-- Ticker list submitted by `refresh_52w_cache` (`52weeks.py` line 233):
all registry values, or exactly the one debug ticker. -/
def refreshTickers (symbol_values : List (String × String))
    (debug_single : Option String) : List String :=
  match debug_single with
  | none => symbol_values.map (fun p => p.2)
  | some s => [s]

/-- Embedding of `refresh_52w_cache` (`52weeks.py` lines 231–251): collect
per-ticker results in completion order and build the persisted payload with
today's date and the full `symbols` registry mapping.  The payload is always
passed to `save_cache` (line 250), also in debug-single mode. -/
def refresh_52w_cache (symbol_values : List (String × String))
    (_debug_single : Option String) (order : List String)
    (outcome : String → Option Quote52) (today : String) : Payload :=
  { date := today, symbols := symbol_values, values := collectResults order outcome }

/-- Python truthiness of the optional `--single` CLI string: `None` and the
empty string are falsy. -/
def pyFalsyStr : Option String → Bool
  | none => true
  | some s => s.isEmpty

/-- Embedding of the freshness gate in `main` of `52weeks.py` (line 257):
the refresh is skipped iff no force flag is set, the loaded cache date equals
today's IST date string, and no debug single ticker was supplied. -/
def main_skips_refresh (force_refresh : Bool) (cache_date : Option String)
    (today : String) (single_ticker : Option String) : Bool :=
  !force_refresh && (cache_date == some today) && pyFalsyStr single_ticker

/-- Contents of the on-disk cache file: either the well-formed JSON document
`json.dump` produced for some payload, or a truncated/partially-written
document left behind when the write failed after `open(CACHE_FILE, "w")` had
already truncated the file. -/
inductive FileContents where
  | jsonOf (p : Payload)
  | corrupt
deriving DecidableEq

/-- Outcome of the write attempted by `save_cache`: `ok` (dump succeeded),
`openFail` (`open(CACHE_FILE, "w")` itself raised, file untouched), or
`midwriteFail` (`open` succeeded — truncating the file — and `json.dump`
then raised). -/
inductive WriteOutcome where
  | ok
  | openFail
  | midwriteFail
deriving DecidableEq

/-- File-system state touched by `save_cache`: the cache file (absent or
with contents) and the append-only log. -/
structure FsState where
  cacheFile : Option FileContents
  logLines : List String
deriving DecidableEq

/-- Embedding of `save_cache` (`52weeks.py` lines 88–94): serialize the full
envelope over the previous file; on success a confirmation line is logged, on
any failure the exception is caught and an error line is logged — nothing is
raised either way.  `open(CACHE_FILE, "w")` truncates before `json.dump`
runs, so a mid-write failure leaves a corrupt file while a failure of `open`
itself leaves the previous contents in place. -/
def save_cache (p : Payload) (w : WriteOutcome) (fs : FsState) : FsState :=
  match w with
  | .ok => { cacheFile := some (.jsonOf p), logLines := fs.logLines ++ ["saved cache"] }
  | .openFail => { fs with logLines := fs.logLines ++ ["save_cache error"] }
  | .midwriteFail => { cacheFile := some .corrupt, logLines := fs.logLines ++ ["save_cache error"] }

/-- Apostrophe character, kept out of string literals. -/
def sqc : String := String.singleton (Char.ofNat 39)

/-- One character of `html.escape(s, quote=True)`. -/
def escChar (c : Char) : String :=
  if c = '&' then "&amp;"
  else if c = '<' then "&lt;"
  else if c = '>' then "&gt;"
  else if c = '"' then "&quot;"
  else if c = Char.ofNat 39 then "&#x27;"
  else String.singleton c

/-- Model of Python `html.escape` on an actual string.  The call sites in
`make_row` pass `html.escape` a value that can be `None`, in which case the
call raises; that case is handled at the call site. -/
def htmlEscape (s : String) : String :=
  String.join (s.toList.map escChar)

/-- Half-even rounding of `q` to an integer number of hundredths, as CPython
`format` does for `.2f` (modelled on the exact rational value; the binary
double representation underneath CPython floats is not modelled). -/
def round2 (q : ℚ) : Int :=
  let x := q * 100
  let f : Int := ⌊x⌋
  let r := x - (f : ℚ)
  if r < 1 / 2 then f
  else if 1 / 2 < r then f + 1
  else if f % 2 = 0 then f else f + 1

/-- Digits of `n` grouped in threes by commas, fed the reversed digit list. -/
def commaGroupRev (l : List Char) : List Char :=
  if l.length ≤ 3 then l
  else l.take 3 ++ ',' :: commaGroupRev (l.drop 3)
termination_by l.length
decreasing_by simp only [List.length_drop]; omega

/-- Model of the Python format `f"{v:,.2f}"`: thousands separators and two
fractional digits. -/
def formatComma2 (q : ℚ) : String :=
  let n := round2 q
  let sgn := if n < 0 then "-" else ""
  let a := n.natAbs
  let ip := a / 100
  let fp := a % 100
  sgn ++ String.mk (commaGroupRev (toString ip).toList.reverse).reverse
    ++ "." ++ (if fp < 10 then "0" else "") ++ toString fp

/-- Model of the Python format `f"{v:+.2f}"`: explicit sign and two
fractional digits, no separators. -/
def formatSigned2 (q : ℚ) : String :=
  let n := round2 q
  let sgn := if n < 0 then "-" else "+"
  let a := n.natAbs
  sgn ++ toString (a / 100) ++ "." ++ (if a % 100 < 10 then "0" else "") ++ toString (a % 100)

/-- The `CURRENCY_SUFFIX` table of `stockpricesdaily.py` (lines 58–65). -/
def CURRENCY_SUFFIX : List (String × String) :=
  [("^BSESN", "₹"), ("^NSEI", "₹"), ("PARADEEP.NS", "₹"), ("DMART.NS", "₹"),
   ("RELIANCE.NS", "₹"), ("TCS.NS", "₹"), ("HDFCBANK.NS", "₹"), ("SBIN.NS", "₹"),
   ("ITC.NS", "₹"), ("TATAMOTORS.NS", "₹"), ("NESTLEIND.NS", "₹"),
   ("USDINR=X", "₹"), ("BTC-USD", "$"), ("BZ=F", "$"), ("GC=F", "$"), ("SI=F", "$"),
   ("GC=F-INR", "₹"), ("SI=F-INR", "₹")]

/-- Embedding of `get_suffix_for_symbol` (`stockpricesdaily.py`
lines 347–354): falsy symbol → no suffix, table lookup, then heuristics on
the symbol shape. -/
def get_suffix_for_symbol (sym : Option String) : String :=
  match sym with
  | none => ""
  | some s =>
    if s = "" then ""
    else
      match CURRENCY_SUFFIX.find? (fun p => p.1 = s) with
      | some p => p.2
      | none =>
        if s.endsWith ".NS" || s.startsWith "^" || decide (List.IsInfix "INR".toList s.toList) then "₹"
        else "$"

/-- Embedding of `format_cell_value` (`stockpricesdaily.py` lines 356–363)
at the default `digits=2`: `None` renders as the `"N/A"` placeholder, a float
is formatted with separators and the currency suffix (`float(val)` cannot
raise on a float, so the `except` arm returning `str(val)` is unreachable
here). -/
def format_cell_value (val : Option ℚ) (sym : Option String) : String :=
  match val with
  | none => "N/A"
  | some v => formatComma2 v ++ " " ++ get_suffix_for_symbol sym

/-- Per-symbol entry of the quote map handed to `make_row`: each field of the
Python dict may be missing or `None` (modelled identically, as the code only
uses `e.get(...)`). -/
structure RowEntry where
  price : Option ℚ
  change : Option ℚ
  change_pct : Option ℚ
  time : Option String
  yearHigh : Option ℚ
  yearLow : Option ℚ
deriving DecidableEq

/-- Embedding of `make_row` (`stockpricesdaily.py` lines 365–383).  `e` is
`none` for the falsy empty dict `{}` and `some entry` for a truthy dict.
Every numeric field falls back to a placeholder when absent (`math.isnan` is
always false on the modelled exact rationals); but `time_str` is `None` for a
truthy dict without a `"time"` key, and the f-string then evaluates
`html.escape(time_str)`, which raises — modelled as `Except.error`. -/
def make_row (display_name : String) (e : Option RowEntry) (sym : Option String) :
    Except String String :=
  let price := match e with | some e' => e'.price | none => none
  let price_str := match price with | some _ => format_cell_value price sym | none => "N/A"
  let change := match e with | some e' => e'.change | none => none
  let change_pct := match e with | some e' => e'.change_pct | none => none
  let chs := match change with | some c => formatSigned2 c | none => "—"
  let pc := match change_pct with | some c => formatSigned2 c ++ "%" | none => "—"
  let time_str : Option String := match e with | some e' => e'.time | none => some ""
  let cls := match change with
    | some c => if 0 < c then "up" else if c < 0 then "down" else "neutral"
    | none => "neutral"
  let yr_high := match e with | some e' => e'.yearHigh | none => none
  let yr_low := match e with | some e' => e'.yearLow | none => none
  let high_str := match yr_high with | some _ => format_cell_value yr_high sym | none => "—"
  let low_str := match yr_low with | some _ => format_cell_value yr_low sym | none => "—"
  match time_str with
  | none => .error "AttributeError: html.escape received None for the time cell"
  | some ts =>
    .ok ("<tr><td>" ++ htmlEscape display_name
      ++ "</td><td style=" ++ sqc ++ "text-align:right;font-weight:700" ++ sqc ++ ">"
      ++ price_str
      ++ "</td><td style=" ++ sqc ++ "text-align:right" ++ sqc
      ++ " class=" ++ sqc ++ cls ++ sqc ++ ">" ++ chs
      ++ "</td><td style=" ++ sqc ++ "text-align:right" ++ sqc
      ++ " class=" ++ sqc ++ cls ++ sqc ++ ">" ++ pc
      ++ "</td><td style=" ++ sqc ++ "text-align:right" ++ sqc ++ ">" ++ htmlEscape ts
      ++ "</td><td style=" ++ sqc ++ "text-align:right" ++ sqc ++ ">" ++ low_str
      ++ "</td><td style=" ++ sqc ++ "text-align:right" ++ sqc ++ ">" ++ high_str
      ++ "</td></tr>")

/-- An `Except` value is a success. -/
def exceptOk : Except String String → Bool
  | .ok _ => true
  | .error _ => false

/-! Helper lemmas about the insertion-ordered mapping and result collection. -/

theorem dictGet_cons (q : String × Quote52) (l : List (String × Quote52)) (k : String) :
    dictGet (q :: l) k = if q.1 = k then some q.2 else dictGet l k := by
  by_cases h : q.1 = k
  · simp [dictGet, List.find?, h]
  · simp [dictGet, List.find?, h]

theorem dictGet_dictSet_self (m : List (String × Quote52)) (k : String) (v : Quote52) :
    dictGet (dictSet m k v) k = some v := by
  induction m with
  | nil => simp [dictSet, dictGet_cons]
  | cons p rest ih =>
    by_cases h : p.1 = k
    · simp [dictSet, h, dictGet_cons]
    · simp [dictSet, h, dictGet_cons, ih]

theorem dictGet_dictSet_ne (m : List (String × Quote52)) (k : String) (v : Quote52)
    (k' : String) (h : k' ≠ k) : dictGet (dictSet m k v) k' = dictGet m k' := by
  induction m with
  | nil => simp [dictSet, dictGet_cons, Ne.symm h, dictGet]
  | cons p rest ih =>
    by_cases hp : p.1 = k
    · have hpk : ¬ p.1 = k' := by rw [hp]; exact Ne.symm h
      simp [dictSet, hp, dictGet_cons, Ne.symm h, hpk]
    · simp [dictSet, hp, dictGet_cons, ih]

theorem dictSet_keys_mem (m : List (String × Quote52)) (k : String) (v : Quote52)
    (a : String) :
    a ∈ (dictSet m k v).map Prod.fst ↔ a = k ∨ a ∈ m.map Prod.fst := by
  induction m with
  | nil => simp [dictSet]
  | cons p rest ih =>
    by_cases hp : p.1 = k
    · simp only [dictSet, hp, if_pos, List.map_cons, List.mem_cons]
      tauto
    · simp only [dictSet, hp, if_neg, List.map_cons, List.mem_cons, ih, not_false_iff]
      tauto

theorem dictSet_keys_nodup (m : List (String × Quote52)) (k : String) (v : Quote52)
    (h : (m.map Prod.fst).Nodup) : ((dictSet m k v).map Prod.fst).Nodup := by
  induction m with
  | nil => simp [dictSet]
  | cons p rest ih =>
    simp only [List.map_cons, List.nodup_cons] at h
    by_cases hp : p.1 = k
    · simp only [dictSet, hp, if_pos, List.map_cons, List.nodup_cons]
      exact ⟨hp ▸ h.1, h.2⟩
    · simp only [dictSet, hp, if_neg, List.map_cons, List.nodup_cons, not_false_iff]
      refine ⟨fun hm => ?_, ih h.2⟩
      rcases (dictSet_keys_mem rest k v p.1).mp hm with h1 | h1
      · exact hp h1
      · exact h.1 h1

theorem collect_get_aux (outcome : String → Option Quote52) (order : List String)
    (m : List (String × Quote52)) (tk : String) :
    dictGet (order.foldl (fun acc t => dictSet acc t ((outcome t).getD noneQuote)) m) tk
      = if tk ∈ order then some ((outcome tk).getD noneQuote) else dictGet m tk := by
  induction order generalizing m with
  | nil => simp
  | cons x xs ih =>
    simp only [List.foldl_cons]
    rw [ih]
    by_cases hx : tk ∈ xs
    · simp [hx, List.mem_cons]
    · by_cases he : tk = x
      · subst he
        simp [hx, dictGet_dictSet_self]
      · simp [hx, he, dictGet_dictSet_ne _ _ _ _ he]

theorem collect_nodup_aux (outcome : String → Option Quote52) (order : List String)
    (m : List (String × Quote52)) (h : (m.map Prod.fst).Nodup) :
    ((order.foldl (fun acc t => dictSet acc t ((outcome t).getD noneQuote)) m).map
      Prod.fst).Nodup := by
  induction order generalizing m with
  | nil => simpa
  | cons x xs ih =>
    simp only [List.foldl_cons]
    exact ih _ (dictSet_keys_nodup _ _ _ h)

/-! Helper lemmas about column extremes. -/

theorem foldl_max_pick (xs : List ℚ) (a : ℚ) :
    xs.foldl max a = a ∨ xs.foldl max a ∈ xs := by
  induction xs generalizing a with
  | nil => left; rfl
  | cons x xs ih =>
    rw [List.foldl_cons]
    rcases ih (max a x) with h | h
    · rcases max_choice a x with hm | hm
      · left; rw [h, hm]
      · right; rw [h, hm]; exact List.mem_cons_self _ _
    · right; exact List.mem_cons_of_mem _ h

theorem le_foldl_max_self (xs : List ℚ) (a : ℚ) : a ≤ xs.foldl max a := by
  induction xs generalizing a with
  | nil => exact le_rfl
  | cons x xs ih =>
    rw [List.foldl_cons]
    exact le_trans (le_max_left a x) (ih (max a x))

theorem le_foldl_max_mem (xs : List ℚ) (a x : ℚ) (hx : x ∈ xs) : x ≤ xs.foldl max a := by
  induction xs generalizing a with
  | nil => cases hx
  | cons y ys ih =>
    rw [List.foldl_cons]
    rcases List.mem_cons.mp hx with h | h
    · subst h
      exact le_trans (le_max_right a x) (le_foldl_max_self ys (max a x))
    · exact ih (max a y) h

theorem colMax_mem (l : List ℚ) (h : l ≠ []) : colMax l ∈ l := by
  cases l with
  | nil => exact absurd rfl h
  | cons x xs =>
    rcases foldl_max_pick xs x with h1 | h1
    · rw [colMax, h1]; exact List.mem_cons_self _ _
    · rw [colMax]; exact List.mem_cons_of_mem _ h1

theorem le_colMax (l : List ℚ) (x : ℚ) (hx : x ∈ l) : x ≤ colMax l := by
  cases l with
  | nil => cases hx
  | cons y ys =>
    rw [colMax]
    rcases List.mem_cons.mp hx with h | h
    · subst h; exact le_foldl_max_self ys x
    · exact le_foldl_max_mem ys y x h

theorem foldl_min_pick (xs : List ℚ) (a : ℚ) :
    xs.foldl min a = a ∨ xs.foldl min a ∈ xs := by
  induction xs generalizing a with
  | nil => left; rfl
  | cons x xs ih =>
    rw [List.foldl_cons]
    rcases ih (min a x) with h | h
    · rcases min_choice a x with hm | hm
      · left; rw [h, hm]
      · right; rw [h, hm]; exact List.mem_cons_self _ _
    · right; exact List.mem_cons_of_mem _ h

theorem foldl_min_le_self (xs : List ℚ) (a : ℚ) : xs.foldl min a ≤ a := by
  induction xs generalizing a with
  | nil => exact le_rfl
  | cons x xs ih =>
    rw [List.foldl_cons]
    exact le_trans (ih (min a x)) (min_le_left a x)

theorem foldl_min_le_mem (xs : List ℚ) (a x : ℚ) (hx : x ∈ xs) : xs.foldl min a ≤ x := by
  induction xs generalizing a with
  | nil => cases hx
  | cons y ys ih =>
    rw [List.foldl_cons]
    rcases List.mem_cons.mp hx with h | h
    · subst h
      exact le_trans (foldl_min_le_self ys (min a x)) (min_le_right a x)
    · exact ih (min a y) h

theorem colMin_mem (l : List ℚ) (h : l ≠ []) : colMin l ∈ l := by
  cases l with
  | nil => exact absurd rfl h
  | cons x xs =>
    rcases foldl_min_pick xs x with h1 | h1
    · rw [colMin, h1]; exact List.mem_cons_self _ _
    · rw [colMin]; exact List.mem_cons_of_mem _ h1

theorem colMin_le (l : List ℚ) (x : ℚ) (hx : x ∈ l) : colMin l ≤ x := by
  cases l with
  | nil => cases hx
  | cons y ys =>
    rw [colMin]
    rcases List.mem_cons.mp hx with h | h
    · subst h; exact foldl_min_le_self ys x
    · exact foldl_min_le_mem ys y x h

/-- C3: for every set of requested tickers, the aggregate mapping produced by
a resolution pass (`refresh_52w_cache`, collecting futures in any completion
order) contains exactly one entry per requested ticker identifier — keys are
duplicate-free and a ticker has an entry iff it was requested — and a ticker
all of whose accessor calls failed (its future raised or timed out) is mapped
to the all-absent quote rather than dropped. -/
theorem refresh_collects_exactly_one_entry_per_ticker
    (symbol_values : List (String × String)) (debug_single : Option String)
    (order : List String) (outcome : String → Option Quote52) (today : String)
    (hperm : order.Perm (refreshTickers symbol_values debug_single)) :
    ((refresh_52w_cache symbol_values debug_single order outcome today).values.map
      Prod.fst).Nodup
    ∧ (∀ tk, tk ∈ refreshTickers symbol_values debug_single ↔
        (dictGet (refresh_52w_cache symbol_values debug_single order outcome today).values
          tk).isSome)
    ∧ (∀ tk, tk ∈ refreshTickers symbol_values debug_single → outcome tk = none →
        dictGet (refresh_52w_cache symbol_values debug_single order outcome today).values tk
          = some noneQuote) := by
  have hv : (refresh_52w_cache symbol_values debug_single order outcome today).values
      = collectResults order outcome := rfl
  refine ⟨?_, ?_, ?_⟩
  · rw [hv]
    exact collect_nodup_aux outcome order [] (by simp)
  · intro tk
    rw [hv]
    unfold collectResults
    rw [collect_get_aux]
    by_cases hm : tk ∈ order
    · simp [hm, hperm.mem_iff.mp hm]
    · have hnt : tk ∉ refreshTickers symbol_values debug_single :=
        fun hc => hm (hperm.mem_iff.mpr hc)
      simp [hm, hnt, dictGet]
  · intro tk htk hout
    rw [hv]
    unfold collectResults
    rw [collect_get_aux]
    have hm : tk ∈ order := hperm.mem_iff.mpr htk
    simp [hm, hout]

/-- C3 witness: two requested tickers, collected in reversed completion
order, with every accessor call failing for `"T2"`: `"T2"` still gets an
entry, the all-absent quote. -/
theorem refresh_collects_witness :
    dictGet (refresh_52w_cache [("A", "T1"), ("B", "T2")] none ["T2", "T1"]
      (fun tk => if tk = "T1" then some ⟨some 1, none, none, none⟩ else none)
      "2024-03-11").values "T2" = some noneQuote :=
  (refresh_collects_exactly_one_entry_per_ticker [("A", "T1"), ("B", "T2")] none
    ["T2", "T1"] (fun tk => if tk = "T1" then some ⟨some 1, none, none, none⟩ else none)
    "2024-03-11" (by decide)).2.2 "T2" (by decide) (by decide)

/-- C7: supplying a debug single ticker makes `main` run the resolution pass
regardless of cache freshness (the stored-date check is bypassed even when
the cached date equals today), and the envelope the pass persists carries
values for exactly that one ticker — not for the full registry. -/
theorem single_ticker_bypasses_freshness
    (force : Bool) (cache_date : Option String) (today : String) (s : String)
    (hs : s ≠ "") (symbol_values : List (String × String)) (order : List String)
    (outcome : String → Option Quote52)
    (hperm : order.Perm (refreshTickers symbol_values (some s))) :
    main_skips_refresh force cache_date today (some s) = false
    ∧ (refresh_52w_cache symbol_values (some s) order outcome today).values.map Prod.fst
        = [s]
    ∧ ∀ t, t ≠ s →
        dictGet (refresh_52w_cache symbol_values (some s) order outcome today).values t
          = none := by
  have horder : order = [s] := by
    have hp : order.Perm [s] := by simpa [refreshTickers] using hperm
    exact List.perm_singleton.mp hp
  subst horder
  refine ⟨?_, rfl, ?_⟩
  · have hne : s.isEmpty = false := by
      cases he : s.isEmpty
      · rfl
      · exact absurd ((String.isEmpty_iff s).mp he) hs
    simp [main_skips_refresh, pyFalsyStr, hne]
  · intro t ht
    show dictGet (dictSet [] s ((outcome s).getD noneQuote)) t = none
    simp [dictSet, dictGet_cons, Ne.symm ht, dictGet]

/-- C7 witness: with a fresh cache (stored date equal to today) and no force
flag, the single-ticker override still runs the pass, and the persisted
values cover exactly the one ticker. -/
theorem single_ticker_witness :
    main_skips_refresh false (some "2024-03-11") "2024-03-11" (some "RELIANCE.NS") = false
    ∧ (refresh_52w_cache [("Reliance Industries", "RELIANCE.NS"), ("TCS", "TCS.NS")]
        (some "RELIANCE.NS") ["RELIANCE.NS"] (fun _ => none) "2024-03-11").values.map
        Prod.fst = ["RELIANCE.NS"] := by
  have h := single_ticker_bypasses_freshness false (some "2024-03-11") "2024-03-11"
    "RELIANCE.NS" (by decide) [("Reliance Industries", "RELIANCE.NS"), ("TCS", "TCS.NS")]
    ["RELIANCE.NS"] (fun _ => none) (by decide)
  exact ⟨h.1, h.2.1⟩

/-- C4: for a well-formed (nonempty) current-date string, `cache_is_fresh`
returns true iff the envelope's stored date string equals today's date string
under plain string equality; the empty envelope and an envelope without a
date are never fresh. -/
theorem cache_is_fresh_iff_date_eq_today (today : String) (h : today ≠ "") :
    (∀ cache, cache_is_fresh cache today = true ↔
      ∃ c, cache = some c ∧ c.date = some today)
    ∧ (∀ c : Cache52, c.date = none → cache_is_fresh (some c) today = false)
    ∧ cache_is_fresh none today = false := by
  refine ⟨?_, ?_, rfl⟩
  · intro cache
    match cache with
    | none => simp [cache_is_fresh]
    | some c =>
      match hc : c.date with
      | none => simp [cache_is_fresh, hc]
      | some d =>
        by_cases hd : d = ""
        · subst hd
          simp only [cache_is_fresh, hc, if_pos rfl]
          constructor
          · intro hfalse; cases hfalse
          · rintro ⟨c', hc', hdate⟩
            cases hc'
            rw [hc] at hdate
            cases hdate
            exact absurd rfl h
        · simp only [cache_is_fresh, hc, if_neg hd, decide_eq_true_eq]
          constructor
          · rintro rfl; exact ⟨c, rfl, hc⟩
          · rintro ⟨c', hc', hdate⟩
            cases hc'
            rw [hc] at hdate
            exact (Option.some.injEq _ _).mp hdate
  · intro c hc
    simp [cache_is_fresh, hc]

/-- C4 witness: an envelope stamped `"2024-03-11"` is fresh on
`"2024-03-11"`. -/
theorem cache_is_fresh_witness :
    cache_is_fresh (some ⟨some "2024-03-11", []⟩) "2024-03-11" = true :=
  ((cache_is_fresh_iff_date_eq_today "2024-03-11" (by decide)).1
    (some ⟨some "2024-03-11", []⟩)).mpr ⟨⟨some "2024-03-11", []⟩, rfl, rfl⟩

/-- C5: the numeric-coercion function maps `"1,234.50"` to `1234.5`
(thousands separators stripped), maps the unparseable `"abc"` and the absent
value to absent, and on every input yields either a rational or absent (it is
a total function: no exception can escape it). -/
theorem safe_float_spec :
    safe_float (some (.str "1,234.50")) = some 1234.5
    ∧ safe_float (some (.str "abc")) = none
    ∧ safe_float none = none
    ∧ ∀ x, safe_float x = none ∨ ∃ q, safe_float x = some q := by
  refine ⟨?_, ?_, rfl, ?_⟩
  · have h : parseDecLit (pyStrip ("1,234.50".toList.filter (fun c => c ≠ ','))) =
        some ⟨false, 1234, 50, 2⟩ := by decide
    simp only [safe_float, parsePyFloat, h, Option.map_some]
    norm_num [DecLit.val]
  · have h : parseDecLit (pyStrip ("abc".toList.filter (fun c => c ≠ ','))) = none := by
      decide
    simp only [safe_float, parsePyFloat, h]
    rfl
  · intro x
    rcases hx : safe_float x with _ | q
    · exact Or.inl rfl
    · exact Or.inr ⟨q, rfl⟩

/-- C8: the per-ticker resolution is attempted at most 3 times; a backoff
sleep separates consecutive attempts (one fewer sleep than attempts, and none
after the final one); retries happen only when an attempt raised (a
successful first attempt ends the loop immediately with no sleep); after the
third failed attempt the all-absent quote is returned and the final failure
is logged — the function returns normally in every case, so no exception
reaches the dispatcher. -/
theorem fetch_52w_retry_spec (runs : Nat → Option FetchEnv) :
    (fetch_52w_for_symbol runs).attemptsMade ≤ 3
    ∧ (fetch_52w_for_symbol runs).sleeps = (fetch_52w_for_symbol runs).attemptsMade - 1
    ∧ (runs 1 = none → runs 2 = none → runs 3 = none →
        (fetch_52w_for_symbol runs).quote = noneQuote
          ∧ "final failure" ∈ (fetch_52w_for_symbol runs).logs)
    ∧ (∀ e, runs 1 = some e →
        fetch_52w_for_symbol runs = ⟨fetch52wBody e, 1, 0, []⟩)
    ∧ (∀ e, runs 1 = none → runs 2 = some e →
        fetch_52w_for_symbol runs = ⟨fetch52wBody e, 2, 1, ["attempt 1 error"]⟩)
    ∧ (∀ e, runs 1 = none → runs 2 = none → runs 3 = some e →
        fetch_52w_for_symbol runs
          = ⟨fetch52wBody e, 3, 2, ["attempt 1 error", "attempt 2 error"]⟩) := by
  rcases h1 : runs 1 with _ | e1
  · rcases h2 : runs 2 with _ | e2
    · rcases h3 : runs 3 with _ | e3
      · simp [fetch_52w_for_symbol, h1, h2, h3, noneQuote]
      · simp [fetch_52w_for_symbol, h1, h2, h3]
    · simp [fetch_52w_for_symbol, h1, h2]
  · simp [fetch_52w_for_symbol, h1]

/-- C8 witness: all three attempts raising yields the all-absent quote after
3 attempts and 2 sleeps with the final failure logged; a first attempt that
succeeds (here with every accessor empty) ends after 1 attempt and 0
sleeps. -/
theorem fetch_52w_retry_witness :
    (fetch_52w_for_symbol (fun _ => none)).quote = noneQuote
    ∧ "final failure" ∈ (fetch_52w_for_symbol (fun _ => none)).logs
    ∧ fetch_52w_for_symbol (fun _ => some ⟨none, [], none, none⟩)
        = ⟨fetch52wBody ⟨none, [], none, none⟩, 1, 0, []⟩ := by
  refine ⟨?_, ?_, ?_⟩
  · exact ((fetch_52w_retry_spec (fun _ => none)).2.2.1 rfl rfl rfl).1
  · exact ((fetch_52w_retry_spec (fun _ => none)).2.2.1 rfl rfl rfl).2
  · exact (fetch_52w_retry_spec (fun _ => some ⟨none, [], none, none⟩)).2.2.2.1
      ⟨none, [], none, none⟩ rfl

/-- C6 counterexample: a write failure occurring after `open(CACHE_FILE, "w")`
has succeeded (modelled by `midwriteFail`) does NOT leave the previously
persisted cache file untouched: the old contents are destroyed, because
opening in `"w"` mode truncates the file before `json.dump` runs. -/
theorem save_cache_midwrite_clobbers :
    (save_cache ⟨"2024-03-11", [], []⟩ .midwriteFail
      ⟨some (.jsonOf ⟨"2024-03-10", [], []⟩), []⟩).cacheFile
      ≠ some (.jsonOf ⟨"2024-03-10", [], []⟩) := by decide

/-- C6 amended: saving serializes the full envelope over any previous file;
every write failure is caught and logged, never raised (the function is
total); the previous on-disk contents survive only when opening the file
itself fails — a failure during the dump leaves the file truncated or
partially written instead. -/
theorem save_cache_failure_logged_not_raised (p : Payload) (w : WriteOutcome)
    (fs : FsState) :
    (w = .ok → save_cache p w fs = ⟨some (.jsonOf p), fs.logLines ++ ["saved cache"]⟩)
    ∧ (w ≠ .ok → (save_cache p w fs).logLines = fs.logLines ++ ["save_cache error"])
    ∧ (w = .openFail → (save_cache p w fs).cacheFile = fs.cacheFile)
    ∧ (w = .midwriteFail → (save_cache p w fs).cacheFile = some .corrupt) := by
  cases w <;> simp [save_cache]

/-- C6 witness: when `open` itself fails, the previous contents do survive
and the error is logged. -/
theorem save_cache_openFail_witness :
    (save_cache ⟨"2024-03-11", [], []⟩ .openFail
      ⟨some (.jsonOf ⟨"2024-03-10", [], []⟩), []⟩).cacheFile
      = some (.jsonOf ⟨"2024-03-10", [], []⟩) :=
  (save_cache_failure_logged_not_raised ⟨"2024-03-11", [], []⟩ .openFail
    ⟨some (.jsonOf ⟨"2024-03-10", [], []⟩), []⟩).2.2.1 rfl

/-- C2: `make_row` applied to a truthy quote record whose fields are all
absent (exactly what the fetcher produces for a ticker whose daily-bars
extraction failed: a dict holding only `display_name` and `None` 52-week
fields) raises instead of rendering — `time_str` is `None` and
`html.escape(time_str)` fails — while the falsy empty record `{}` does render
with placeholders.  This contradicts the claim that the row formatting never
raises on all-absent records. -/
theorem make_row_raises_on_truthy_all_absent :
    make_row "Sensex" (some ⟨none, none, none, none, none, none⟩) (some "^BSESN")
      = .error "AttributeError: html.escape received None for the time cell"
    ∧ exceptOk (make_row "Sensex" none (some "^BSESN")) = true := ⟨rfl, rfl⟩

/-! Helper lemmas: the close-column pass never touches the 52-week fields. -/

theorem applyCloses_yr_high (h : HistDF) (p : PreQuote) :
    (applyCloses h p).yr_high = p.yr_high := by
  simp only [applyCloses]
  split_ifs <;> rfl

theorem applyCloses_yr_low (h : HistDF) (p : PreQuote) :
    (applyCloses h p).yr_low = p.yr_low := by
  simp only [applyCloses]
  split_ifs <;> rfl

/-- C9: when the 52-week fields are supplied by neither the snapshot nor the
metadata accessor and a nonempty 1-year historical series with High and Low
columns is available, the resolved `yearHigh` is exactly the maximum of the
daily High values and `yearLow` exactly the minimum of the daily Low values
(the conjuncts also certify that `colMax`/`colMin` are the maximum and
minimum of the column). -/
theorem hist_yearHigh_max_yearLow_min (env : FetchEnv) (h : HistDF)
    (ha : (accessorStage env).yr_high = none) (hb : (accessorStage env).yr_low = none)
    (h1 : env.hist1y = some h) (he : h.empty = false)
    (hH : h.hasHigh = true) (hL : h.hasLow = true)
    (hhs : h.highs ≠ []) (hls : h.lows ≠ []) :
    (fetch52wBody env).yearHigh = some (colMax h.highs)
    ∧ colMax h.highs ∈ h.highs ∧ (∀ x ∈ h.highs, x ≤ colMax h.highs)
    ∧ (fetch52wBody env).yearLow = some (colMin h.lows)
    ∧ colMin h.lows ∈ h.lows ∧ (∀ x ∈ h.lows, colMin h.lows ≤ x) := by
  have hstage : histStage env (accessorStage env) = applyHist h (accessorStage env) := by
    unfold histStage
    simp only [ha, Option.isNone_none, Bool.true_or, if_true, h1, he]
  have hhl : applyHighLow h (accessorStage env)
      = { accessorStage env with
          yr_high := some (.num (colMax h.highs)),
          yr_low := some (.num (colMin h.lows)) } := by
    unfold applyHighLow
    simp only [hH, hL, and_self, if_true, ha, hb]
  have hyH : (fetch52wBody env).yearHigh
      = safe_float (histStage env (accessorStage env)).yr_high := rfl
  have hyL : (fetch52wBody env).yearLow
      = safe_float (histStage env (accessorStage env)).yr_low := rfl
  refine ⟨?_, colMax_mem _ hhs, fun x hx => le_colMax _ x hx,
    ?_, colMin_mem _ hls, fun x hx => colMin_le _ x hx⟩
  · rw [hyH, hstage]
    unfold applyHist
    rw [applyCloses_yr_high, hhl]
    rfl
  · rw [hyL, hstage]
    unfold applyHist
    rw [applyCloses_yr_low, hhl]
    rfl

/-- C9 witness: a synthetic series with daily highs `[10, 15, 9, 20]` and
lows `[5, 6, 4, 3]` resolves `yearHigh = 20` and `yearLow = 3`. -/
theorem hist_yearHigh_max_witness :
    (fetch52wBody ⟨none, [],
      some ⟨false, true, true, [10, 15, 9, 20], [5, 6, 4, 3], false, []⟩,
      none⟩).yearHigh = some 20
    ∧ (fetch52wBody ⟨none, [],
      some ⟨false, true, true, [10, 15, 9, 20], [5, 6, 4, 3], false, []⟩,
      none⟩).yearLow = some 3 := by
  have h := hist_yearHigh_max_yearLow_min
    ⟨none, [], some ⟨false, true, true, [10, 15, 9, 20], [5, 6, 4, 3], false, []⟩, none⟩
    ⟨false, true, true, [10, 15, 9, 20], [5, 6, 4, 3], false, []⟩
    (by decide) (by decide) rfl rfl rfl rfl (by decide) (by decide)
  have hmax : colMax [10, 15, 9, 20] = (20 : ℚ) := by decide
  have hmin : colMin [5, 6, 4, 3] = (3 : ℚ) := by decide
  exact ⟨by rw [h.1, hmax], by rw [h.2.2.2.1, hmin]⟩

/-- C10 counterexample: a numerically zero yearHigh supplied by the last
alias of the fast-snapshot chain is NOT treated as missing at the next tier —
the escalation to the metadata accessor tests `is None`, so the metadata
value 100 does not replace the 0.  This falsifies the claim read at this
fallback tier. -/
theorem zero_yearHigh_not_replaced_cex :
    (fetch52wBody ⟨some [("52WeekHigh", .num 0)], [("fiftyTwoWeekHigh", .num 100)],
      none, none⟩).yearHigh = some 0
    ∧ (fetch52wBody ⟨some [("52WeekHigh", .num 0)], [("fiftyTwoWeekHigh", .num 100)],
      none, none⟩).yearHigh ≠ some 100 := by
  constructor <;> decide

/-- C10 amended: truthiness `or`-chaining makes a zero value act as missing
inside each alias chain and throughout the `close`/`previousClose` resolution
chains — a genuine 0.0 close from the fast snapshot accessor is overridden by
the metadata value, and a zero `yearHigh` alias falls through to the next
alias of the same chain — but the cross-tier escalation for
`yearHigh`/`yearLow` tests `is None`, so a zero produced there survives (see
the counterexample). -/
theorem truthiness_or_chain_spec (q : ℚ) (hq : q ≠ 0) :
    (fetch52wBody ⟨some [("lastPrice", .num 0)], [("regularMarketPrice", .num q)],
      none, none⟩).close = some q
    ∧ (fetch52wBody ⟨some [("yearHigh", .num 0), ("fiftyTwoWeekHigh", .num 50)], [],
      none, none⟩).yearHigh = some 50 := by
  constructor
  · simp [fetch52wBody, accessorStage, histStage, applyHist, applyCloses, applyHighLow,
      pyOr, truthy, Dict.get, List.find?, safe_float, hq]
  · decide

/-- C10 amended witness: a concrete 0.0 snapshot close overridden by the
metadata value 123. -/
theorem truthiness_or_chain_witness :
    (fetch52wBody ⟨some [("lastPrice", .num 0)], [("regularMarketPrice", .num 123)],
      none, none⟩).close = some 123 :=
  (truthiness_or_chain_spec 123 (by norm_num)).1
